import Mathlib

/-
Verification of the lato in-process message-dispatch / dependency-resolution
core, as a shallow embedding of the Python source:
  lato/dependency_provider.py  (registry, parameter resolver)
  lato/transaction_context.py  (execution context, middleware chain, publish/execute)
  lato/compositon.py           (result composer)
  lato/application.py          (middleware registration, unit-of-work wrapper)

Python dicts are embedded as insertion-ordered association lists: assigning to
an existing key overwrites the value in place (keeping its position), a new key
is appended at the end.  Exceptions are embedded as `Except` errors carrying
the Python class name of the raised exception (and, where relevant, a payload).
-/

namespace Lato

/-- Insertion-ordered dict assignment `d[k] = v`: overwrite in place, else append. -/
def ldictSet {κ α : Type} [DecidableEq κ] : List (κ × α) → κ → α → List (κ × α)
  | [], k, v => [(k, v)]
  | (k', v') :: rest, k, v =>
    if k' = k then (k, v) :: rest else (k', v') :: ldictSet rest k v

/-- Dict lookup `d[k]` returning `none` when the key is absent. -/
def ldictGet? {κ α : Type} [DecidableEq κ] : List (κ × α) → κ → Option α
  | [], _ => none
  | (k', v') :: rest, k => if k' = k then some v' else ldictGet? rest k

theorem ldictGet?_ldictSet_eq {κ α : Type} [DecidableEq κ]
    (d : List (κ × α)) (k : κ) (v : α) : ldictGet? (ldictSet d k v) k = some v := by
  induction d with
  | nil => simp [ldictSet, ldictGet?]
  | cons p rest ih =>
    obtain ⟨k', v'⟩ := p
    by_cases h : k' = k
    · simp [ldictSet, h, ldictGet?]
    · simp [ldictSet, h, ldictGet?, ih]

theorem ldictGet?_ldictSet_ne {κ α : Type} [DecidableEq κ]
    (d : List (κ × α)) (k j : κ) (v : α) (hne : k ≠ j) :
    ldictGet? (ldictSet d k v) j = ldictGet? d j := by
  induction d with
  | nil => simp [ldictSet, ldictGet?, hne]
  | cons p rest ih =>
    obtain ⟨k', v'⟩ := p
    by_cases h : k' = k
    · subst h
      simp [ldictSet, ldictGet?, hne]
    · simp [ldictSet, h, ldictGet?, ih]

theorem ldictSet_ne_nil {κ α : Type} [DecidableEq κ]
    (d : List (κ × α)) (k : κ) (v : α) : ldictSet d k v ≠ [] := by
  cases d with
  | nil => simp [ldictSet]
  | cons p rest =>
    obtain ⟨k', v'⟩ := p
    by_cases h : k' = k <;> simp [ldictSet, h]

/-- Keys present in an association dict. -/
def ldictHas {κ α : Type} [DecidableEq κ] (d : List (κ × α)) (k : κ) : Bool :=
  (ldictGet? d k).isSome

/-! ## Python values (for the result composer) -/

/-- A Python dict key: a string or an integer.  Strings and integers are the
only key kinds the composer's operations can create (mergedeep's list-source
merging writes integer keys); Python's `True`/`1` hash-and-equality
unification is modelled by normalizing bool keys and indices to their integer
value; other key types (`None`, floats, tuples) are outside this universe. -/
inductive PyKey : Type where
  | s : String → PyKey
  | i : Int → PyKey
deriving DecidableEq, Repr

/-- Python runtime values occurring in handler results.  Mappings are
insertion-ordered dicts over `PyKey` keys (handler results re-keyed by
`TransactionContext._compose_results` use string keys). -/
inductive PyVal : Type where
  | none : PyVal
  | bool : Bool → PyVal
  | int : Int → PyVal
  | str : String → PyVal
  | dict : List (PyKey × PyVal) → PyVal
  | list : List PyVal → PyVal

/-- The test `value is not None` from `compose`. -/
def PyVal.isNone : PyVal → Bool
  | .none => true
  | _ => false

/-- Python `type(x)`, as a class name: used by mergedeep's TYPESAFE check. -/
def pyType : PyVal → String
  | .none => "NoneType"
  | .bool _ => "bool"
  | .int _ => "int"
  | .str _ => "str"
  | .dict _ => "dict"
  | .list _ => "list"

/-- A raised Python exception: its class name and (where the source attaches
one) a payload of values. -/
structure PyExc : Type where
  cls : String
  args : List PyVal := []

/-- A `TypeError` whose message text is immaterial to the control flow. -/
def typeErr : PyExc := ⟨"TypeError", []⟩

/-- An `IndexError`, raised by out-of-range list indexing/assignment; it is
not a `TypeError`, so `compose` does not catch it. -/
def indexErr : PyExc := ⟨"IndexError", []⟩

/-- Python `==` between a number and a value, as membership tests use it:
an int equals ints and bools of the same numeric value; it never equals
`None`, strings, dicts or lists (and those comparisons raise nothing). -/
def numEq (n : Int) : PyVal → Bool
  | .int m => m = n
  | .bool b => (if b then (1 : Int) else 0) = n
  | _ => false

/-- Python list read `l[i]` with negative-index wrapping; `none` is an
`IndexError`. -/
def pyListGet? (l : List PyVal) (i : Int) : Option PyVal :=
  let j : Int := if i < 0 then i + l.length else i
  if 0 ≤ j then l[j.toNat]? else Option.none

/-- Python list assignment `l[i] = v` with negative-index wrapping; `none`
is an `IndexError` (assignment cannot extend a list). -/
def pyListSet? (l : List PyVal) (i : Int) (v : PyVal) : Option (List PyVal) :=
  let j : Int := if i < 0 then i + l.length else i
  if 0 ≤ j ∧ j.toNat < l.length then some (l.set j.toNat v) else Option.none

/-! ## mergedeep's `merge` with `Strategy.TYPESAFE_ADDITIVE`
(`additive_merge = partial(merge, strategy=Strategy.TYPESAFE_ADDITIVE)` in
lato/compositon.py, applied pairwise by `reduce`).

`_deepmerge(dst, src)` runs `for key in src`, so an empty iterable `src`
(empty dict, empty list, empty string) performs zero iterations and returns
`dst` unchanged whatever `dst` is, while a non-iterable `src` (`None`,
`bool`, `int`) raises `TypeError` at once.  Per key:
`if key in dst` then — when `dst[key]` and `src[key]` are both mappings —
recurse, otherwise apply the TYPESAFE check (`TypeError` on differing runtime
types) and then ADDITIVE merging (two lists concatenate, any other same-type
pair is replaced by the source's value); `else dst[key] = src[key]`.
How `in`, `dst[key]` and `src[key]` behave depends on the runtime types:
- destination `None`/`bool`/`int`: the membership test raises `TypeError` on
  the first key;
- destination `str`: a string key/element passes the substring test but the
  subsequent string indexing raises `TypeError`; any other key raises
  `TypeError` in the membership test itself;
- dict source, dict destination: the ordinary deep merge;
- dict source, list destination: a string key raises `TypeError` when
  indexing the list, an integer key indexes the destination list
  (out of range: `IndexError`; `src[key]` is a plain dict lookup);
- list source: the iterated keys are the list's elements and `src[key]`
  indexes the source list by that element — string and `None` elements raise
  `TypeError` at the first indexing, dict/list elements are unhashable
  against a dict destination and raise `TypeError` when indexing a list
  destination, while int/bool elements index both sides, possibly succeeding
  (replacing a list element or creating an integer dict key) or raising
  `IndexError`.
Only the dict-into-dict case recurses, so the recursion is structural on the
source dict. -/

mutual

def mergeDicts : PyVal → PyVal → Except PyExc PyVal
  | .dict d, .dict s => Except.map PyVal.dict (mergeInto d s)
  | _, _ => .error typeErr

def mergeInto (d : List (PyKey × PyVal)) :
    List (PyKey × PyVal) → Except PyExc (List (PyKey × PyVal))
  | [] => .ok d
  | (k, sv) :: rest =>
    match ldictGet? d k with
    | some dv =>
      match dv, sv with
      | .dict dd, .dict ss =>
        match mergeDicts (.dict dd) (.dict ss) with
        | .ok merged => mergeInto (ldictSet d k merged) rest
        | .error e => .error e
      | _, _ =>
        if pyType dv = pyType sv then
          match dv, sv with
          | .list a, .list b => mergeInto (ldictSet d k (.list (a ++ b))) rest
          | _, _ => mergeInto (ldictSet d k sv) rest
        else .error typeErr
    | Option.none => mergeInto (d ++ [(k, sv)]) rest

end

/-- Dict source into list destination: a string key raises `TypeError`
(list indices must be integers; both the found and the not-found branch
index the list); an integer key is first membership-tested against the
list's elements by value, then read/written as an index, with the source
value coming from the (always successful) dict lookup. -/
def mergeDictIntoList (M : List PyVal) :
    List (PyKey × PyVal) → Except PyExc (List PyVal)
  | [] => .ok M
  | (.s _, _) :: _ => .error typeErr
  | (.i n, sv) :: rest =>
    if M.any (numEq n) then
      match pyListGet? M n with
      | Option.none => .error indexErr
      | some dv =>
        match dv, sv with
        | .dict dd, .dict ss =>
          match mergeInto dd ss with
          | .ok merged =>
            match pyListSet? M n (.dict merged) with
            | some M2 => mergeDictIntoList M2 rest
            | Option.none => .error indexErr
          | .error e => .error e
        | _, _ =>
          if pyType dv = pyType sv then
            match (match dv, sv with
                   | .list a, .list b => pyListSet? M n (.list (a ++ b))
                   | _, _ => pyListSet? M n sv) with
            | some M2 => mergeDictIntoList M2 rest
            | Option.none => .error indexErr
          else .error typeErr
    else
      match pyListSet? M n sv with
      | some M2 => mergeDictIntoList M2 rest
      | Option.none => .error indexErr

/-- List source into dict destination: the iterated keys are the source
list's elements.  Dict/list elements are unhashable (`TypeError` in the
membership test); string and `None` elements raise `TypeError` when indexing
the source list; an int/bool element is looked up among the dict's keys by
numeric value — when found, `dst[key]` is the dict value and `src[key]`
indexes the source list (recursing when both are dicts, else the
typesafe/additive step); when absent, `dst[key] = src[key]` creates an
integer-keyed entry, the source indexing raising `IndexError` out of
range. -/
def mergeListIntoDict (d : List (PyKey × PyVal)) (L : List PyVal) :
    List PyVal → Except PyExc (List (PyKey × PyVal))
  | [] => .ok d
  | e :: rest =>
    match (match e with
           | .int n => some n
           | .bool b => some (if b then (1 : Int) else 0)
           | _ => Option.none) with
    | Option.none => .error typeErr
    | some n =>
      match ldictGet? d (.i n) with
      | some dv =>
        match dv with
        | .dict dd =>
          match pyListGet? L n with
          | Option.none => .error indexErr
          | some sv =>
            match sv with
            | .dict ss =>
              match mergeInto dd ss with
              | .ok merged => mergeListIntoDict (ldictSet d (.i n) (.dict merged)) L rest
              | .error err => .error err
            | _ => .error typeErr
        | _ =>
          match pyListGet? L n with
          | Option.none => .error indexErr
          | some sv =>
            if pyType dv = pyType sv then
              match dv, sv with
              | .list a, .list b =>
                mergeListIntoDict (ldictSet d (.i n) (.list (a ++ b))) L rest
              | _, _ => mergeListIntoDict (ldictSet d (.i n) sv) L rest
            else .error typeErr
      | Option.none =>
        match pyListGet? L n with
        | Option.none => .error indexErr
        | some sv => mergeListIntoDict (ldictSet d (.i n) sv) L rest

/-- List source into list destination: the iterated keys are the source
list's elements.  String, `None`, dict and list elements raise `TypeError`
(membership may succeed but indexing a list by them raises); an int/bool
element is membership-tested by value and then used to index both lists —
recursing when both elements are dicts, else the typesafe/additive step when
found, plain element assignment when not — raising `IndexError` when either
index is out of range. -/
def mergeListIntoList (M : List PyVal) (L : List PyVal) :
    List PyVal → Except PyExc (List PyVal)
  | [] => .ok M
  | e :: rest =>
    match (match e with
           | .int n => some n
           | .bool b => some (if b then (1 : Int) else 0)
           | _ => Option.none) with
    | Option.none => .error typeErr
    | some n =>
      if M.any (numEq n) then
        match pyListGet? M n with
        | Option.none => .error indexErr
        | some dv =>
          match dv with
          | .dict dd =>
            match pyListGet? L n with
            | Option.none => .error indexErr
            | some sv =>
              match sv with
              | .dict ss =>
                match mergeInto dd ss with
                | .ok merged =>
                  match pyListSet? M n (.dict merged) with
                  | some M2 => mergeListIntoList M2 L rest
                  | Option.none => .error indexErr
                | .error err => .error err
              | _ => .error typeErr
          | _ =>
            match pyListGet? L n with
            | Option.none => .error indexErr
            | some sv =>
              if pyType dv = pyType sv then
                match (match dv, sv with
                       | .list a, .list b => pyListSet? M n (.list (a ++ b))
                       | _, _ => pyListSet? M n sv) with
                | some M2 => mergeListIntoList M2 L rest
                | Option.none => .error indexErr
              else .error typeErr
      else
        match pyListGet? L n with
        | Option.none => .error indexErr
        | some sv =>
          match pyListSet? M n sv with
          | some M2 => mergeListIntoList M2 L rest
          | Option.none => .error indexErr

/-- `_deepmerge(dst, src)` dispatching on the source's runtime type, as
described above.  An empty dict/list/string source returns the destination
unchanged (zero loop iterations). -/
def deepMerge (dst src : PyVal) : Except PyExc PyVal :=
  match src with
  | .dict [] => .ok dst
  | .dict (e :: s) =>
    match dst with
    | .dict d => Except.map PyVal.dict (mergeInto d (e :: s))
    | .list M => Except.map PyVal.list (mergeDictIntoList M (e :: s))
    | _ => .error typeErr
  | .list [] => .ok dst
  | .list (e :: rest) =>
    match dst with
    | .dict d => Except.map PyVal.dict (mergeListIntoDict d (e :: rest) (e :: rest))
    | .list M => Except.map PyVal.list (mergeListIntoList M (e :: rest) (e :: rest))
    | _ => .error typeErr
  | .str s => if s = "" then .ok dst else .error typeErr
  | .none => .error typeErr
  | .bool _ => .error typeErr
  | .int _ => .error typeErr

/-- Python `operator.or_` on the embedded values: boolean or, bitwise or on
ints (with bools promoted to ints when mixed), and PEP 584 dict union for two
dicts (right operand wins on key collision); everything else raises
`TypeError`. -/
def pyOr : PyVal → PyVal → Except PyExc PyVal
  | .bool a, .bool b => .ok (.bool (a || b))
  | .bool a, .int m => .ok (.int (Int.lor (if a then 1 else 0) m))
  | .int n, .bool b => .ok (.int (Int.lor n (if b then 1 else 0)))
  | .int n, .int m => .ok (.int (Int.lor n m))
  | .dict d, .dict s => .ok (.dict (s.foldl (fun acc p => ldictSet acc p.1 p.2) d))
  | _, _ => .error typeErr

/-- Python `operator.add` on the embedded values: arithmetic addition for
ints/bools, concatenation for strings and lists; everything else raises
`TypeError`. -/
def pyAdd : PyVal → PyVal → Except PyExc PyVal
  | .bool a, .bool b => .ok (.int ((if a then 1 else 0) + (if b then 1 else 0)))
  | .bool a, .int m => .ok (.int ((if a then 1 else 0) + m))
  | .int n, .bool b => .ok (.int (n + (if b then 1 else 0)))
  | .int n, .int m => .ok (.int (n + m))
  | .str s, .str t => .ok (.str (s ++ t))
  | .list l, .list m => .ok (.list (l ++ m))
  | _, _ => .error typeErr

/-- `functools.reduce(op, values)`: left fold with the first value as the
accumulator; `reduce` of an empty iterable itself raises a `TypeError`. -/
def reduceOp (op : PyVal → PyVal → Except PyExc PyVal) :
    List PyVal → Except PyExc PyVal
  | [] => .error typeErr
  | v :: rest => rest.foldlM op v

/-- The `for op in operators: try ... except TypeError: pass` loop of
`compose`; a `TypeError` moves on to the next operator, any other exception
propagates, and exhausting the operators raises
`TypeError("Could not compose", values)`. -/
def tryOperators (values : List PyVal) :
    List (PyVal → PyVal → Except PyExc PyVal) → Except PyExc PyVal
  | [] => .error ⟨"TypeError", [.str "Could not compose", .list values]⟩
  | op :: rest =>
    match reduceOp op values with
    | .ok v => .ok v
    | .error e => if e.cls = "TypeError" then tryOperators values rest else .error e

/-- `compose(compose_operator=None, **kwargs)` from lato/compositon.py:
drop `None` values, return `None` for zero values and the single value for
one, otherwise reduce with the given operator or with the default chain
`[additive_merge, or_, add]`. -/
def compose (compose_operator : Option (PyVal → PyVal → Except PyExc PyVal))
    (kwargs : List (String × PyVal)) : Except PyExc PyVal :=
  let values := (kwargs.map Prod.snd).filter (fun v => !v.isNone)
  match values with
  | [] => .ok .none
  | [first] => .ok first
  | first :: next :: rest =>
    let operators :=
      match compose_operator with
      | some op => [op]
      | Option.none => [deepMerge, pyOr, pyAdd]
    tryOperators (first :: next :: rest) operators

/-! ## Dependency registry and parameter resolver (lato/dependency_provider.py) -/

/-- A dependency identifier: a parameter name or a type
(`DependencyIdentifier = Union[str, type]`); types are embedded by their
class name. -/
inductive DepId : Type where
  | name : String → DepId
  | ty : String → DepId
deriving DecidableEq, Repr

/-- A Python object as the registry stores it: its runtime class name and an
identity tag distinguishing objects. -/
structure PyObj : Type where
  ty : String
  val : Int
deriving DecidableEq, Repr

/-- A value handed to `update`: either a plain object or a
`TypedDependency` produced by `as_type(obj, cls)`. -/
inductive DepValue : Type where
  | plain : PyObj → DepValue
  | typed : PyObj → String → DepValue
deriving DecidableEq, Repr

/-- `DependencyProvider._get_type_and_value`: a `TypedDependency` contributes
its declared type, a plain value its runtime type. -/
def getTypeAndValue : DepValue → String × PyObj
  | .plain o => (o.ty, o)
  | .typed o t => (t, o)

/-- The `_dependencies` dict of `BasicDependencyProvider`. -/
abbrev Registry : Type := List (DepId × PyObj)

/-- `BasicDependencyProvider.register_dependency`: one dict assignment (the
source's `if isinstance(identifier, type)` branch repeats the same
assignment). -/
def register_dependency (r : Registry) (identifier : DepId) (dep : PyObj) : Registry :=
  ldictSet r identifier dep

/-- `BasicDependencyProvider.has_dependency`. -/
def has_dependency (r : Registry) (identifier : DepId) : Bool :=
  ldictHas r identifier

/-- `BasicDependencyProvider.get_dependency`: raises
`UnknownDependencyError` when the identifier is absent. -/
def get_dependency (r : Registry) (identifier : DepId) : Except PyExc PyObj :=
  match ldictGet? r identifier with
  | some v => .ok v
  | Option.none => .error ⟨"UnknownDependencyError", []⟩

/-- `DependencyProvider.update` for `BasicDependencyProvider`
(`allow_names = allow_types = True`): positional values register under their
type; named values register under the name and then under the type. -/
def update (r : Registry) (args : List DepValue) (kwargs : List (String × DepValue)) :
    Registry :=
  kwargs.foldl
    (fun acc nv =>
      register_dependency
        (register_dependency acc (.name nv.1) (getTypeAndValue nv.2).2)
        (.ty (getTypeAndValue nv.2).1) (getTypeAndValue nv.2).2)
    (args.foldl
      (fun acc v =>
        register_dependency acc (.ty (getTypeAndValue v).1) (getTypeAndValue v).2)
      r)

/-- `BasicDependencyProvider.copy`: a fresh provider, its dict seeded with all
of the parent's entries (`dp._dependencies.update(self._dependencies)` into an
empty dict preserves the parent's entry order), then `update` applies the
overrides.  The parent registry value is not part of the result. -/
def copy (r : Registry) (args : List DepValue) (kwargs : List (String × DepValue)) :
    Registry :=
  update r args kwargs

/-- A declared parameter of a callable, as `get_function_parameters` extracts
it: its name and its annotation (`none` embeds `inspect.Parameter.empty`),
with the type annotation given by class name. -/
structure Param : Type where
  name : String
  annotation : Option String
deriving DecidableEq, Repr

/-- The loop body of `DependencyProvider.resolve_func_params`, one declared
parameter at a time, carrying the positional-argument cursor `arg_idx` and the
`resolved_kwargs` ordered dict. -/
def resolveGo (r : Registry) (func_args : List PyObj)
    (func_kwargs : List (String × PyObj)) :
    List Param → Nat → List (String × PyObj) → List (String × PyObj)
  | [], _, acc => acc
  | p :: rest, argIdx, acc =>
    match func_args[argIdx]? with
    | some a => resolveGo r func_args func_kwargs rest (argIdx + 1) (ldictSet acc p.name a)
    | Option.none =>
      match ldictGet? func_kwargs p.name with
      | some v => resolveGo r func_args func_kwargs rest argIdx (ldictSet acc p.name v)
      | Option.none =>
        match (match p.annotation with
               | some t => ldictGet? r (.ty t)
               | Option.none => Option.none) with
        | some v => resolveGo r func_args func_kwargs rest argIdx (ldictSet acc p.name v)
        | Option.none =>
          match ldictGet? r (.name p.name) with
          | some v => resolveGo r func_args func_kwargs rest argIdx (ldictSet acc p.name v)
          | Option.none => resolveGo r func_args func_kwargs rest argIdx acc

/-- `DependencyProvider.resolve_func_params`: positional arguments are
consumed left-to-right (`arg_idx < len(func_args)` is `func_args[arg_idx]?`
being `some`), then keyword arguments by name, then the registry by declared
type (`param_type != inspect.Parameter.empty and self.has_dependency(param_type)`,
with `has_dependency` followed by `get_dependency` collapsed to one lookup),
then the registry by parameter name; an unmatched parameter is skipped. -/
def resolve_func_params (r : Registry) (params : List Param)
    (func_args : List PyObj) (func_kwargs : List (String × PyObj)) :
    List (String × PyObj) :=
  resolveGo r func_args func_kwargs params 0 []

/-- The binding rule for one parameter as the spec states it (§4.2): the
positional argument at the parameter's declaration position if one remains,
else the same-named keyword argument, else the registry binding for the
declared type, else the registry binding for the name, else unbound. -/
def specParamBinding (r : Registry) (func_args : List PyObj)
    (func_kwargs : List (String × PyObj)) (p : Param) (pos : Nat) : Option PyObj :=
  match func_args[pos]? with
  | some a => some a
  | Option.none =>
    match ldictGet? func_kwargs p.name with
    | some v => some v
    | Option.none =>
      match (match p.annotation with
             | some t => ldictGet? r (.ty t)
             | Option.none => Option.none) with
      | some v => some v
      | Option.none => ldictGet? r (.name p.name)

/-! ## Middleware chain (lato/application.py, lato/transaction_context.py)

For the ordering claim a middleware is embedded by its observable effect on an
ordered log: a middleware receives its `call_next` continuation (the
`TransactionContext` argument carries no information relevant here) and
returns the transformed continuation. -/

/-- A continuation as an effect on the ordered log of events. -/
abbrev LogFn : Type := List String → List String

/-- A middleware `(ctx, call_next) -> result`, reduced to its log effect. -/
abbrev Mw : Type := LogFn → LogFn

/-- `Application.transaction_middleware`: inserts the new middleware at the
front of `_transaction_middlewares` (`insert(0, middleware_func)`). -/
def transaction_middleware (m : Mw) (ms : List Mw) : List Mw :=
  m :: ms

/-- The wrapping loop of `TransactionContext.call`: starting from the handler
as `call_next`, each middleware of `self._middlewares[::-1]` wraps the current
continuation (`call_next = partial(m, self, call_next)`). -/
def composeCall (ms : List Mw) (handler : LogFn) : LogFn :=
  ms.reverse.foldl (fun callNext m => m callNext) handler

/-- The logging middleware of the spec's ordering scenario: append
`"<name>-pre"`, run `call_next`, append `"<name>-post"`. -/
def loggingMiddleware (nm : String) : Mw :=
  fun callNext log => callNext (log ++ [nm ++ "-pre"]) ++ [nm ++ "-post"]

/-- Registering one logging middleware per name, in the given order, on an
application that starts with no middlewares. -/
def registerAll (names : List String) : List Mw :=
  names.foldl (fun ms nm => transaction_middleware (loggingMiddleware nm) ms) []

/-! ## Sync/async mode checks (lato/transaction_context.py)

A callable is embedded by the one bit the drivers probe:
`asyncio.iscoroutinefunction`.  The checks happen before the composed chain is
invoked, so the hook/handler bodies are elided. -/

/-- A callable as seen by `asyncio.iscoroutinefunction`. -/
structure HFn : Type where
  isAsync : Bool
deriving DecidableEq, Repr

/-- The mode check of `TransactionContext.begin`: an async
`on_enter_transaction_context` callback raises `ValueError` before the hook
is invoked; otherwise the (elided) hook runs. -/
def begin_check (onEnter : Option HFn) : Except String Unit :=
  match onEnter with
  | some h => if h.isAsync then .error "ValueError" else .ok ()
  | Option.none => .ok ()

/-- The mode check of `TransactionContext.end`: an async
`on_exit_transaction_context` callback raises `ValueError`. -/
def end_check (onExit : Option HFn) : Except String Unit :=
  match onExit with
  | some h => if h.isAsync then .error "ValueError" else .ok ()
  | Option.none => .ok ()

/-- The mode checks of `TransactionContext.call`: an async `func` raises
`TypeError` at once, and the wrapping loop raises `TypeError` at the first
async middleware of `self._middlewares[::-1]`, in both cases before the
composed `call_next()` is invoked (`.ok` means the call proceeds). -/
def call_sync_check (func : HFn) (ms : List HFn) : Except String Unit :=
  if func.isAsync then .error "TypeError"
  else if ms.any (fun m => m.isAsync) then .error "TypeError"
  else .ok ()

/-- The wrapping loop of `TransactionContext.call_async`, tracking whether the
current `call_next` is a coroutine function: an async middleware over a sync
continuation first lifts it with `maybe_await` (which is async), a sync
middleware over an async continuation raises `TypeError`, and the
continuation after wrapping has the middleware's own mode.  Returns the mode
of the fully composed continuation. -/
def modeStep (callNextAsync : Bool) (m : HFn) : Except String Bool :=
  let lifted := if m.isAsync && !callNextAsync then true else callNextAsync
  if !m.isAsync && lifted then Except.error "TypeError"
  else Except.ok m.isAsync

def call_async_compose (func : HFn) (ms : List HFn) : Except String Bool :=
  ms.reverse.foldlM modeStep func.isAsync

/-! ## publish / execute (lato/transaction_context.py, lato/application.py) -/

/-- A `MessageHandler` descriptor `(source, message, fn)`; the function is
embedded by an identity tag, its behavior is supplied separately.  Dataclass
equality compares all three fields. -/
structure MessageHandler : Type where
  source : String
  message : String
  fn : Nat
deriving DecidableEq, Repr

/-- The behavior of a handler function when invoked by `call`: its value, or
the exception it raises. -/
abbrev HandlerBehavior : Type := Nat → Except PyExc PyVal

/-- An observable event of a unit of work. -/
inductive Ev : Type where
  | handler : Nat → Ev
  | composer : Ev
deriving DecidableEq, Repr

/-- The loop of `TransactionContext.publish`: for each handler located by the
handlers iterator, in order, invoke `self.call(handler.fn, ...)` and store the
result in the `OrderedDict` keyed by the handler descriptor; a raising handler
stops the loop and the exception propagates.  The event log records each
handler invocation. -/
def publishGo (beh : HandlerBehavior) :
    List MessageHandler → List Ev → List (MessageHandler × PyVal) →
    List Ev × Except PyExc (List (MessageHandler × PyVal))
  | [], log, acc => (log, .ok acc)
  | h :: rest, log, acc =>
    match beh h.fn with
    | .ok v => publishGo beh rest (log ++ [.handler h.fn]) (ldictSet acc h v)
    | .error e => (log ++ [.handler h.fn], .error e)

/-- `TransactionContext.publish` for the handlers matching one alias. -/
def publish (beh : HandlerBehavior) (handlers : List MessageHandler) :
    List Ev × Except PyExc (List (MessageHandler × PyVal)) :=
  publishGo beh handlers [] []

/-- A registered result composer, as `composer(**kwargs)` receives its
arguments: the ordered keyword dict. -/
abbrev Composer : Type := List (String × PyVal) → Except PyExc PyVal

/-- The re-keying step of `TransactionContext._compose_results`:
`kwargs = \x7bk.source: v for k, v in results.items()\x7d` — a dict
comprehension, so a later result of the same source overwrites the earlier one
in place. -/
def rekeyBySource (results : List (MessageHandler × PyVal)) : List (String × PyVal) :=
  results.foldl (fun acc p => ldictSet acc p.1.source p.2) []

/-- `TransactionContext._compose_results`: pick the composer registered for
the message's alias, defaulting to `compose`, and invoke it on the
source-keyed results. -/
def composeResults (composers : List (String × Composer)) (msgAlias : String)
    (results : List (MessageHandler × PyVal)) : Except PyExc PyVal :=
  let composer := (ldictGet? composers msgAlias).getD (compose Option.none)
  composer (rekeyBySource results)

/-- `TransactionContext.execute`: publish, raise `HandlerNotFoundError` when
no handler produced a result, otherwise compose.  The event log additionally
records the composer invocation. -/
def executeTx (beh : HandlerBehavior) (handlers : List MessageHandler)
    (composers : List (String × Composer)) (msgAlias : String) :
    List Ev × Except PyExc PyVal :=
  match publish beh handlers with
  | (log, .error e) => (log, .error e)
  | (log, .ok results) =>
    match results with
    | [] => (log, .error ⟨"HandlerNotFoundError", []⟩)
    | _ :: _ => (log ++ [.composer], composeResults composers msgAlias results)

/-- The unit-of-work wrapper of `Application.publish`:
`with self.transaction_context() as ctx: ctx.publish(event)`.  Entering runs
`begin`; leaving runs `end(exc_val)` exactly once, handing the exit hook the
exception when the body raised, after which the exception propagates
unchanged.  The middle component records each invocation of the exit hook
with the exception it received. -/
def appPublish (beh : HandlerBehavior) (handlers : List MessageHandler) :
    List Ev × List (Option PyExc) × Except PyExc (List (MessageHandler × PyVal)) :=
  match publish beh handlers with
  | (log, .ok results) => (log, [Option.none], .ok results)
  | (log, .error e) => (log, [some e], .error e)

/-! ## Lemmas -/

theorem registerAll_foldl (names : List String) (init : List Mw) :
    names.foldl (fun ms nm => transaction_middleware (loggingMiddleware nm) ms) init =
      (names.map loggingMiddleware).reverse ++ init := by
  induction names generalizing init with
  | nil => simp
  | cons n t ih =>
    simp only [List.foldl_cons, transaction_middleware, List.map_cons,
      List.reverse_cons, List.append_assoc, List.singleton_append]
    exact ih _

theorem composeCall_logging (names : List String) (handler : LogFn) (log0 : List String) :
    ((names.map loggingMiddleware).foldl (fun callNext m => m callNext) handler) log0 =
      handler (log0 ++ names.reverse.map (fun n => n ++ "-pre")) ++
        names.map (fun n => n ++ "-post") := by
  induction names generalizing handler log0 with
  | nil => simp
  | cons n t ih =>
    simp only [List.map_cons, List.foldl_cons, ih, loggingMiddleware,
      List.reverse_cons, List.map_append, List.map_cons, List.map_nil,
      List.append_assoc, List.singleton_append, List.nil_append]

/-- C1: middlewares registered through `transaction_middleware` compose
onion-style around the handler, with the last-registered middleware
outermost: for logging middlewares the composed call appends the `-pre`
entries in reverse registration order, runs the handler, and appends the
`-post` entries in registration order; in particular registering `M1` then
`M2` around a handler logging `"H"` produces exactly
`["M2-pre", "M1-pre", "H", "M1-post", "M2-post"]`. -/
theorem middleware_onion_order :
    (∀ (names : List String) (handler : LogFn) (log0 : List String),
      composeCall (registerAll names) handler log0 =
        handler (log0 ++ names.reverse.map (fun n => n ++ "-pre")) ++
          names.map (fun n => n ++ "-post")) ∧
    composeCall (registerAll ["M1", "M2"]) (fun log => log ++ ["H"]) [] =
      ["M2-pre", "M1-pre", "H", "M1-post", "M2-post"] := by
  constructor
  · intro names handler log0
    have hreg : registerAll names = (names.map loggingMiddleware).reverse := by
      simpa using registerAll_foldl names []
    rw [composeCall, hreg, List.reverse_reverse, composeCall_logging]
  · rfl

/-- `Except` result that is a raised `TypeError` (caught by `compose`). -/
def isTypeError : Except PyExc PyVal → Bool
  | .error e => e.cls = "TypeError"
  | .ok _ => false

theorem tryOperators_ok_first (vals : List PyVal)
    (op : PyVal → PyVal → Except PyExc PyVal)
    (ops : List (PyVal → PyVal → Except PyExc PyVal)) (w : PyVal)
    (h : reduceOp op vals = .ok w) :
    tryOperators vals (op :: ops) = .ok w := by
  simp [tryOperators, h]

theorem tryOperators_skip (vals : List PyVal)
    (op : PyVal → PyVal → Except PyExc PyVal)
    (ops : List (PyVal → PyVal → Except PyExc PyVal))
    (h : isTypeError (reduceOp op vals) = true) :
    tryOperators vals (op :: ops) = tryOperators vals ops := by
  unfold isTypeError at h
  match hr : reduceOp op vals with
  | .ok v => rw [hr] at h; exact absurd h (by simp)
  | .error e =>
    rw [hr] at h
    simp only [tryOperators, hr]
    simp only [decide_eq_true_eq] at h
    simp [h]

/-- C3 (amended): the default composer drops `None` values, returns `None`
for zero remaining values and the single value unchanged for one; with two or
more it attempts in order the additive merge, bitwise/boolean or, and
addition, returning the first reduction that succeeds without a `TypeError`,
and when every reduction raises a `TypeError` it fails with
`TypeError("Could not compose", values)` (no `CompositionError` exists in the
code).  The spec's examples compose as stated. -/
theorem compose_default_behavior :
    (∀ kwargs, (kwargs.map Prod.snd).filter (fun v => !v.isNone) = [] →
      compose Option.none kwargs = .ok .none) ∧
    (∀ kwargs v, (kwargs.map Prod.snd).filter (fun v => !v.isNone) = [v] →
      compose Option.none kwargs = .ok v) ∧
    (∀ kwargs v1 v2 vs w,
      (kwargs.map Prod.snd).filter (fun v => !v.isNone) = v1 :: v2 :: vs →
      (reduceOp deepMerge (v1 :: v2 :: vs) = .ok w →
        compose Option.none kwargs = .ok w) ∧
      (isTypeError (reduceOp deepMerge (v1 :: v2 :: vs)) = true →
        reduceOp pyOr (v1 :: v2 :: vs) = .ok w →
        compose Option.none kwargs = .ok w) ∧
      (isTypeError (reduceOp deepMerge (v1 :: v2 :: vs)) = true →
        isTypeError (reduceOp pyOr (v1 :: v2 :: vs)) = true →
        reduceOp pyAdd (v1 :: v2 :: vs) = .ok w →
        compose Option.none kwargs = .ok w) ∧
      (isTypeError (reduceOp deepMerge (v1 :: v2 :: vs)) = true →
        isTypeError (reduceOp pyOr (v1 :: v2 :: vs)) = true →
        isTypeError (reduceOp pyAdd (v1 :: v2 :: vs)) = true →
        compose Option.none kwargs =
          .error ⟨"TypeError", [.str "Could not compose", .list (v1 :: v2 :: vs)]⟩)) ∧
    compose Option.none
        [("m1", .dict [(.s "a", .int 1)]), ("m2", .dict [(.s "b", .int 2)])] =
      .ok (.dict [(.s "a", .int 1), (.s "b", .int 2)]) ∧
    compose Option.none [("m1", .int 1), ("m2", .int 2)] = .ok (.int 3) ∧
    compose Option.none [("m1", .bool true), ("m2", .bool false)] = .ok (.bool true) ∧
    compose Option.none [("m1", .none), ("m2", .none)] = .ok .none ∧
    compose Option.none [("m1", .str "x")] = .ok (.str "x") := by
  refine ⟨?_, ?_, ?_, rfl, rfl, rfl, rfl, rfl⟩
  · intro kwargs h
    simp [compose, h]
  · intro kwargs v h
    simp [compose, h]
  · intro kwargs v1 v2 vs w h
    have hc : compose Option.none kwargs =
        tryOperators (v1 :: v2 :: vs) [deepMerge, pyOr, pyAdd] := by
      simp [compose, h]
    refine ⟨?_, ?_, ?_, ?_⟩
    · intro hm
      rw [hc, tryOperators_ok_first _ _ _ _ hm]
    · intro hm ho
      rw [hc, tryOperators_skip _ _ _ hm, tryOperators_ok_first _ _ _ _ ho]
    · intro hm ho ha
      rw [hc, tryOperators_skip _ _ _ hm, tryOperators_skip _ _ _ ho,
        tryOperators_ok_first _ _ _ _ ha]
    · intro hm ho ha
      rw [hc, tryOperators_skip _ _ _ hm, tryOperators_skip _ _ _ ho,
        tryOperators_skip _ _ _ ha]
      rfl

/-- C3 witness: the conjuncts with hypotheses applied at concrete inputs —
the two-value or-reduction (`1 | 2 = 3` after the merge raises `TypeError`)
and the all-operators-fail input `([1], 1)`. -/
theorem compose_default_behavior_witness :
    compose Option.none [("m1", .int 1), ("m2", .int 2)] = .ok (.int 3) ∧
    compose Option.none [("a", .list [.int 1]), ("b", .int 1)] =
      .error ⟨"TypeError", [.str "Could not compose", .list [.list [.int 1], .int 1]]⟩ := by
  constructor
  · exact ((compose_default_behavior.2.2.1
      [("m1", .int 1), ("m2", .int 2)] (.int 1) (.int 2) [] (.int 3) rfl).2.1 rfl rfl)
  · exact ((compose_default_behavior.2.2.1
      [("a", .list [.int 1]), ("b", .int 1)] (.list [.int 1]) (.int 1) []
      .none rfl).2.2.2 rfl rfl rfl)

/-- C3 counterexample: at the input whose values are `[1]` and `1`, every
reduction operator raises a `TypeError` and `compose` raises a plain
`TypeError("Could not compose", values)` — the class of the raised exception
is `TypeError`, not the `CompositionError` the claim names (the repository
defines no such exception), and its payload is the attempted values, not the
attempted operators. -/
theorem compose_no_composition_error :
    compose Option.none [("a", .list [.int 1]), ("b", .int 1)] =
      .error ⟨"TypeError", [.str "Could not compose", .list [.list [.int 1], .int 1]]⟩ ∧
    "TypeError" ≠ "CompositionError" := ⟨rfl, by decide⟩

/-- The non-positional part of the resolution chain for one parameter:
keyword argument, then declared-type registry binding, then name registry
binding. -/
def nonPosBinding (r : Registry) (func_kwargs : List (String × PyObj))
    (p : Param) : Option PyObj :=
  match ldictGet? func_kwargs p.name with
  | some v => some v
  | Option.none =>
    match (match p.annotation with
           | some t => ldictGet? r (.ty t)
           | Option.none => Option.none) with
    | some v => some v
    | Option.none => ldictGet? r (.name p.name)

theorem resolveGo_cons (r : Registry) (fa : List PyObj)
    (fk : List (String × PyObj)) (p : Param) (rest : List Param) (a : Nat)
    (acc : List (String × PyObj)) :
    resolveGo r fa fk (p :: rest) a acc =
      match fa[a]? with
      | some arg => resolveGo r fa fk rest (a + 1) (ldictSet acc p.name arg)
      | Option.none =>
        match nonPosBinding r fk p with
        | some v => resolveGo r fa fk rest a (ldictSet acc p.name v)
        | Option.none => resolveGo r fa fk rest a acc := by
  simp only [resolveGo, nonPosBinding]
  cases fa[a]? with
  | some arg => rfl
  | none =>
    cases ldictGet? fk p.name with
    | some v => rfl
    | none =>
      cases hta : (match p.annotation with
                   | some t => ldictGet? r (.ty t)
                   | Option.none => Option.none) with
      | some v => rfl
      | none => cases ldictGet? r (.name p.name) <;> rfl

theorem specParamBinding_eq (r : Registry) (fa : List PyObj)
    (fk : List (String × PyObj)) (p : Param) (pos : Nat) :
    specParamBinding r fa fk p pos =
      match fa[pos]? with
      | some arg => some arg
      | Option.none => nonPosBinding r fk p := rfl

theorem resolveGo_frame (r : Registry) (fa : List PyObj)
    (fk : List (String × PyObj)) (params : List Param) (n : String)
    (hn : n ∉ params.map Param.name) :
    ∀ (a : Nat) (acc : List (String × PyObj)),
      ldictGet? (resolveGo r fa fk params a acc) n = ldictGet? acc n := by
  induction params with
  | nil => intro a acc; simp [resolveGo]
  | cons p rest ih =>
    intro a acc
    simp only [List.map_cons, List.mem_cons, not_or] at hn
    obtain ⟨hne, hrest⟩ := hn
    have hrest' : n ∉ rest.map Param.name := hrest
    rw [resolveGo_cons]
    cases fa[a]? with
    | some arg =>
      rw [ih hrest', ldictGet?_ldictSet_ne _ _ _ _ (fun h => hne h.symm)]
    | none =>
      cases nonPosBinding r fk p with
      | some v =>
        rw [ih hrest', ldictGet?_ldictSet_ne _ _ _ _ (fun h => hne h.symm)]
      | none => rw [ih hrest']

theorem resolveGo_lookup (r : Registry) (fa : List PyObj)
    (fk : List (String × PyObj)) (p : Param) (post : List Param)
    (hpost : p.name ∉ post.map Param.name) :
    ∀ (pre : List Param) (a : Nat) (acc : List (String × PyObj)),
      p.name ∉ pre.map Param.name → a ≤ fa.length →
      ldictGet? acc p.name = Option.none →
      ldictGet? (resolveGo r fa fk (pre ++ p :: post) a acc) p.name =
        specParamBinding r fa fk p (a + pre.length) := by
  intro pre
  induction pre with
  | nil =>
    intro a acc _ _ hacc
    simp only [List.nil_append, List.length_nil, Nat.add_zero]
    rw [resolveGo_cons, specParamBinding_eq]
    cases fa[a]? with
    | some arg => rw [resolveGo_frame r fa fk post p.name hpost, ldictGet?_ldictSet_eq]
    | none =>
      cases nonPosBinding r fk p with
      | some v => rw [resolveGo_frame r fa fk post p.name hpost, ldictGet?_ldictSet_eq]
      | none => rw [resolveGo_frame r fa fk post p.name hpost, hacc]
  | cons q pre' ih =>
    intro a acc hpre ha hacc
    simp only [List.map_cons, List.mem_cons, not_or] at hpre
    obtain ⟨hqne, hpre'⟩ := hpre
    simp only [List.cons_append]
    rw [resolveGo_cons]
    cases hfa : fa[a]? with
    | some arg =>
      have ha' : a + 1 ≤ fa.length := by
        have hlt : a < fa.length := by
          by_contra hge
          rw [List.getElem?_eq_none (by omega)] at hfa
          exact Option.noConfusion hfa
        omega
      rw [ih (a + 1) _ hpre' ha'
        (by rw [ldictGet?_ldictSet_ne _ _ _ _ (fun h => hqne h.symm)]; exact hacc)]
      simp only [List.length_cons]
      congr 1
      omega
    | none =>
      have halen : fa.length ≤ a := by
        by_contra hlt
        exact absurd hfa (by simp [List.getElem?_eq_getElem (by omega : a < fa.length)])
      have hspec : ∀ m m' : Nat, fa.length ≤ m → fa.length ≤ m' →
          specParamBinding r fa fk p m = specParamBinding r fa fk p m' := by
        intro m m' hm hm'
        rw [specParamBinding_eq, specParamBinding_eq,
          List.getElem?_eq_none hm, List.getElem?_eq_none hm']
      cases nonPosBinding r fk q with
      | some v =>
        rw [ih a _ hpre' ha
          (by rw [ldictGet?_ldictSet_ne _ _ _ _ (fun h => hqne h.symm)]; exact hacc)]
        exact hspec _ _ (by omega) (by simp only [List.length_cons]; omega)
      | none =>
        rw [ih a _ hpre' ha hacc]
        exact hspec _ _ (by omega) (by simp only [List.length_cons]; omega)

/-- C2: `resolve_func_params` binds each declared parameter by the first
applicable rule — the positional argument at the parameter's declaration
position if one remains (positional arguments are consumed left-to-right, one
per parameter), else the same-named keyword argument, else the registry
binding for the declared type, else the registry binding for the name (so a
declared-type binding always beats a same-named registry binding). -/
theorem resolve_func_params_order (r : Registry) (fa : List PyObj)
    (fk : List (String × PyObj)) (pre : List Param) (p : Param)
    (post : List Param) (hpre : p.name ∉ pre.map Param.name)
    (hpost : p.name ∉ post.map Param.name) :
    ldictGet? (resolve_func_params r (pre ++ p :: post) fa fk) p.name =
      specParamBinding r fa fk p pre.length := by
  have := resolveGo_lookup r fa fk p post hpost pre 0 [] hpre (Nat.zero_le _) rfl
  rw [resolve_func_params, this, Nat.zero_add]

/-- C2 witness: `f(x, y)` with one positional argument `5` and registry
binding `y = 2` resolves to `f(5, 2)` — `x` binds the positional argument and
`y` the name binding; the full resolved map is exactly that. -/
theorem resolve_func_params_order_witness :
    ldictGet? (resolve_func_params
        (update [] [] [("y", .plain ⟨"int", 2⟩)])
        [⟨"x", Option.none⟩, ⟨"y", Option.none⟩] [⟨"int", 5⟩] []) "x" =
      some ⟨"int", 5⟩ ∧
    ldictGet? (resolve_func_params
        (update [] [] [("y", .plain ⟨"int", 2⟩)])
        [⟨"x", Option.none⟩, ⟨"y", Option.none⟩] [⟨"int", 5⟩] []) "y" =
      some ⟨"int", 2⟩ ∧
    resolve_func_params (update [] [] [("y", .plain ⟨"int", 2⟩)])
        [⟨"x", Option.none⟩, ⟨"y", Option.none⟩] [⟨"int", 5⟩] [] =
      [("x", ⟨"int", 5⟩), ("y", ⟨"int", 2⟩)] := by
  refine ⟨?_, ?_, rfl⟩
  · have h := resolve_func_params_order (update [] [] [("y", .plain ⟨"int", 2⟩)])
      [⟨"int", 5⟩] [] [] ⟨"x", Option.none⟩ [⟨"y", Option.none⟩]
      (by simp) (by simp)
    rw [List.nil_append] at h
    exact h.trans rfl
  · have h := resolve_func_params_order (update [] [] [("y", .plain ⟨"int", 2⟩)])
      [⟨"int", 5⟩] [] [⟨"x", Option.none⟩] ⟨"y", Option.none⟩ []
      (by simp) (by simp)
    exact h.trans rfl

/-- C8: a parameter matched by no positional argument (its declaration
position is past the positional arguments), no keyword argument, no
declared-type registry binding and no name registry binding is left out of
the resolved argument map; `resolve_func_params` is total and raises nothing
of its own. -/
theorem resolve_unmatched_param_skipped (r : Registry) (fa : List PyObj)
    (fk : List (String × PyObj)) (pre : List Param) (p : Param)
    (post : List Param) (hpre : p.name ∉ pre.map Param.name)
    (hpost : p.name ∉ post.map Param.name)
    (hpos : fa.length ≤ pre.length)
    (hkw : ldictGet? fk p.name = Option.none)
    (hty : (match p.annotation with
            | some t => ldictGet? r (.ty t)
            | Option.none => Option.none) = Option.none)
    (hname : ldictGet? r (.name p.name) = Option.none) :
    ldictGet? (resolve_func_params r (pre ++ p :: post) fa fk) p.name =
      Option.none := by
  have h := resolveGo_lookup r fa fk p post hpost pre 0 [] hpre (Nat.zero_le _) rfl
  rw [resolve_func_params, h, Nat.zero_add, specParamBinding_eq,
    List.getElem?_eq_none hpos]
  simp only [nonPosBinding, hkw, hty, hname]

/-- C8 witness: a required parameter `z : Foo` with no arguments and an empty
registry is absent from the resolved map. -/
theorem resolve_unmatched_param_skipped_witness :
    ldictGet? (resolve_func_params [] [⟨"z", some "Foo"⟩] [] []) "z" =
      Option.none :=
  resolve_unmatched_param_skipped [] [] [] [] ⟨"z", some "Foo"⟩ []
    (by simp) (by simp) (by simp) rfl rfl rfl

/-! ## Registry copy isolation (C7) -/

/-- The identifiers that `update(*args, **kwargs)` writes to: the runtime (or
declared) type of each positional value, and for each named value its name
and its type. -/
def touchedIds (args : List DepValue) (kwargs : List (String × DepValue)) :
    List DepId :=
  args.map (fun v => DepId.ty (getTypeAndValue v).1) ++
    kwargs.flatMap (fun nv =>
      [DepId.name nv.1, DepId.ty (getTypeAndValue nv.2).1])

theorem update_args_frame (args : List DepValue) (r : Registry) (i : DepId)
    (h : i ∉ args.map (fun v => DepId.ty (getTypeAndValue v).1)) :
    ldictGet?
      (args.foldl
        (fun acc v =>
          register_dependency acc (.ty (getTypeAndValue v).1) (getTypeAndValue v).2)
        r) i = ldictGet? r i := by
  induction args generalizing r with
  | nil => rfl
  | cons v t ih =>
    simp only [List.map_cons, List.mem_cons, not_or] at h
    simp only [List.foldl_cons]
    rw [ih _ h.2, register_dependency,
      ldictGet?_ldictSet_ne _ _ _ _ (fun hh => h.1 hh.symm)]

theorem update_kwargs_frame (kwargs : List (String × DepValue)) (r : Registry)
    (i : DepId)
    (h : i ∉ kwargs.flatMap (fun nv =>
      [DepId.name nv.1, DepId.ty (getTypeAndValue nv.2).1])) :
    ldictGet?
      (kwargs.foldl
        (fun acc nv =>
          register_dependency
            (register_dependency acc (.name nv.1) (getTypeAndValue nv.2).2)
            (.ty (getTypeAndValue nv.2).1) (getTypeAndValue nv.2).2)
        r) i = ldictGet? r i := by
  induction kwargs generalizing r with
  | nil => rfl
  | cons nv t ih =>
    simp only [List.flatMap_cons, List.mem_append, List.mem_cons,
      List.not_mem_nil, or_false, not_or] at h
    simp only [List.foldl_cons]
    rw [ih _ h.2, register_dependency, register_dependency,
      ldictGet?_ldictSet_ne _ _ _ _ (fun hh => h.1.2 hh.symm),
      ldictGet?_ldictSet_ne _ _ _ _ (fun hh => h.1.1 hh.symm)]

/-- A pair of registries modelling the Python heap after
`r2 = r1.copy(...)`: `BasicDependencyProvider.copy` builds a fresh
`_dependencies` dict seeded from the parent's, so the two dicts are distinct
objects and a registration mutates only the child's. -/
structure RegistryWorld : Type where
  parent : Registry
  child : Registry

/-- `r.copy(*args, **kwargs)` viewed with its parent. -/
def copyWorld (r : Registry) (args : List DepValue)
    (kwargs : List (String × DepValue)) : RegistryWorld :=
  ⟨r, copy r args kwargs⟩

/-- A subsequent `register_dependency` on the copy. -/
def registerOnChild (w : RegistryWorld) (i : DepId) (v : PyObj) : RegistryWorld :=
  ⟨w.parent, register_dependency w.child i v⟩

/-- C7: `copy` returns a registry whose bindings are the parent's updated
with the overrides — identifiers outside the overridden ones keep the
parent's binding, a named override rebinds its name — `copy()` with no
overrides is lookup-equivalent to the parent, and registrations on the copy
leave every lookup on the parent unchanged. -/
theorem copy_isolated :
    (∀ (r : Registry) (args : List DepValue) (kwargs : List (String × DepValue)),
      copy r args kwargs = update r args kwargs) ∧
    (∀ (r : Registry) (i : DepId), ldictGet? (copy r [] []) i = ldictGet? r i) ∧
    (∀ (r : Registry) (args : List DepValue) (kwargs : List (String × DepValue))
        (i : DepId), i ∉ touchedIds args kwargs →
      ldictGet? (copy r args kwargs) i = ldictGet? r i) ∧
    (∀ (r : Registry) (n : String) (dv : DepValue),
      ldictGet? (copy r [] [(n, dv)]) (.name n) = some (getTypeAndValue dv).2) ∧
    (∀ (r : Registry) (args : List DepValue) (kwargs : List (String × DepValue))
        (i : DepId) (v : PyObj) (j : DepId),
      ldictGet? (registerOnChild (copyWorld r args kwargs) i v).parent j =
        ldictGet? r j) := by
  refine ⟨fun _ _ _ => rfl, fun r i => rfl, ?_, ?_, fun _ _ _ _ _ _ => rfl⟩
  · intro r args kwargs i h
    rw [touchedIds, List.mem_append, not_or] at h
    rw [copy, update, update_kwargs_frame _ _ _ h.2, update_args_frame _ _ _ h.1]
  · intro r n dv
    rw [copy, update]
    simp only [List.foldl_cons, List.foldl_nil]
    rw [register_dependency, register_dependency,
      ldictGet?_ldictSet_ne _ _ _ _ (fun hh => DepId.noConfusion hh),
      ldictGet?_ldictSet_eq]

/-- C7 witness: copying a one-entry registry with the named override
`foo = 1` rebinds `foo`, keeps the untouched binding `bar`, the plain copy is
lookup-equivalent, and registering on the copy leaves the parent's lookup
unchanged. -/
theorem copy_isolated_witness :
    copy [(DepId.name "bar", ⟨"int", 7⟩)] [] [("foo", .plain ⟨"int", 1⟩)] =
      update [(DepId.name "bar", ⟨"int", 7⟩)] [] [("foo", .plain ⟨"int", 1⟩)] ∧
    ldictGet? (copy [(DepId.name "bar", ⟨"int", 7⟩)] [] []) (DepId.name "bar") =
      ldictGet? [(DepId.name "bar", (⟨"int", 7⟩ : PyObj))] (DepId.name "bar") ∧
    ldictGet? (copy [(DepId.name "bar", ⟨"int", 7⟩)] [] [("foo", .plain ⟨"int", 1⟩)])
        (DepId.name "bar") = some ⟨"int", 7⟩ ∧
    ldictGet? (copy [(DepId.name "bar", ⟨"int", 7⟩)] [] [("foo", .plain ⟨"int", 1⟩)])
        (DepId.name "foo") = some ⟨"int", 1⟩ ∧
    ldictGet? (registerOnChild
        (copyWorld [(DepId.name "bar", ⟨"int", 7⟩)] [] [("foo", .plain ⟨"int", 1⟩)])
        (DepId.name "baz") ⟨"int", 9⟩).parent (DepId.name "baz") =
      ldictGet? [(DepId.name "bar", (⟨"int", 7⟩ : PyObj))] (DepId.name "baz") := by
  refine ⟨copy_isolated.1 _ _ _, copy_isolated.2.1 _ _, ?_, ?_, ?_⟩
  · exact (copy_isolated.2.2.1 _ [] [("foo", .plain ⟨"int", 1⟩)]
      (DepId.name "bar") (by simp [touchedIds, getTypeAndValue])).trans rfl
  · exact copy_isolated.2.2.2.1 [(DepId.name "bar", ⟨"int", 7⟩)] "foo"
      (.plain ⟨"int", 1⟩)
  · exact copy_isolated.2.2.2.2 _ [] [("foo", .plain ⟨"int", 1⟩)]
      (DepId.name "baz") ⟨"int", 9⟩ (DepId.name "baz")

/-! ## Sync/async mode mismatches (C4) -/

theorem modeStep_sync_over_sync (m : HFn) (hm : m.isAsync = false) :
    modeStep false m = .ok false := by
  simp [modeStep, hm]

theorem foldlM_modeStep_all_sync (l : List HFn)
    (hl : ∀ m ∈ l, m.isAsync = false) :
    l.foldlM modeStep false = Except.ok false := by
  induction l with
  | nil => rfl
  | cons m t ih =>
    rw [List.foldlM_cons, modeStep_sync_over_sync m (hl m (by simp))]
    show t.foldlM modeStep false = Except.ok false
    exact ih (fun x hx => hl x (List.mem_cons_of_mem m hx))

theorem call_async_compose_all_sync (func : HFn) (ms : List HFn)
    (hf : func.isAsync = false) (hms : ∀ m ∈ ms, m.isAsync = false) :
    call_async_compose func ms = .ok false := by
  rw [call_async_compose, hf]
  exact foldlM_modeStep_all_sync ms.reverse
    (fun m hm => hms m (List.mem_reverse.mp hm))

theorem call_async_compose_cons (func : HFn) (ms : List HFn) (m : HFn)
    (b : Bool) (hms : call_async_compose func ms = .ok b) :
    call_async_compose func (m :: ms) = modeStep b m := by
  rw [call_async_compose, List.reverse_cons, List.foldlM_append,
    ← call_async_compose, hms]
  show List.foldlM modeStep b [m] = modeStep b m
  rw [List.foldlM_cons]
  show modeStep b m >>= pure = modeStep b m
  exact bind_pure (modeStep b m)

/-- C4 (amended): the synchronous driver fails before any handler runs —
`call` raises `TypeError` when the target function is asynchronous or when
any registered middleware is asynchronous, while `begin`/`end` raise
`ValueError` (not `TypeError`) when the enter/exit hook is asynchronous; in
the asynchronous driver, a synchronous middleware whose continuation is
asynchronous raises `TypeError` at composition time, while an asynchronous
middleware over a synchronous continuation is lifted and composes
successfully (and an all-synchronous chain composes to a synchronous call,
like `call`). -/
theorem sync_async_mode_checks :
    (∀ (func : HFn) (ms : List HFn), func.isAsync = true →
      call_sync_check func ms = .error "TypeError") ∧
    (∀ (func : HFn) (ms : List HFn) (m : HFn), m ∈ ms → m.isAsync = true →
      call_sync_check func ms = .error "TypeError") ∧
    (∀ h : HFn, h.isAsync = true →
      begin_check (some h) = .error "ValueError" ∧
      end_check (some h) = .error "ValueError") ∧
    (∀ (func : HFn) (ms : List HFn), func.isAsync = false →
      (∀ m ∈ ms, m.isAsync = false) →
      call_sync_check func ms = .ok () ∧ call_async_compose func ms = .ok false) ∧
    (∀ (func mS : HFn) (ms : List HFn), call_async_compose func ms = .ok true →
      mS.isAsync = false →
      call_async_compose func (mS :: ms) = .error "TypeError") ∧
    (∀ (func mA : HFn) (ms : List HFn), call_async_compose func ms = .ok false →
      mA.isAsync = true →
      call_async_compose func (mA :: ms) = .ok true) := by
  refine ⟨?_, ?_, ?_, ?_, ?_, ?_⟩
  · intro func ms hf
    rw [call_sync_check, hf]
    rfl
  · intro func ms m hm ha
    rw [call_sync_check]
    rcases hf : func.isAsync with _ | _
    · rw [if_neg (by simp [hf]), if_pos (List.any_eq_true.mpr ⟨m, hm, ha⟩)]
    · rfl
  · intro h ha
    constructor
    · rw [begin_check, ha]
      rfl
    · rw [end_check, ha]
      rfl
  · intro func ms hf hms
    refine ⟨?_, call_async_compose_all_sync func ms hf hms⟩
    rw [call_sync_check, hf]
    rw [if_neg (by simp), if_neg (by simp [List.any_eq_true]; exact hms)]
  · intro func mS ms hok hs
    rw [call_async_compose_cons func ms mS true hok]
    simp [modeStep, hs]
  · intro func mA ms hok ha
    rw [call_async_compose_cons func ms mA false hok]
    simp [modeStep, ha]

/-- C4 witness: every conjunct applied at a concrete input — an async
handler, an async middleware, an async enter/exit hook, an all-sync chain, a
sync middleware over an async continuation, and an async middleware over a
sync continuation. -/
theorem sync_async_mode_checks_witness :
    call_sync_check ⟨true⟩ [] = .error "TypeError" ∧
    call_sync_check ⟨false⟩ [⟨true⟩] = .error "TypeError" ∧
    (begin_check (some ⟨true⟩) = .error "ValueError" ∧
      end_check (some ⟨true⟩) = .error "ValueError") ∧
    (call_sync_check ⟨false⟩ [⟨false⟩] = .ok () ∧
      call_async_compose ⟨false⟩ [⟨false⟩] = .ok false) ∧
    call_async_compose ⟨true⟩ [⟨false⟩] = .error "TypeError" ∧
    call_async_compose ⟨false⟩ [⟨true⟩] = .ok true := by
  refine ⟨sync_async_mode_checks.1 ⟨true⟩ [] rfl,
    sync_async_mode_checks.2.1 ⟨false⟩ [⟨true⟩] ⟨true⟩ (by simp) rfl,
    sync_async_mode_checks.2.2.1 ⟨true⟩ rfl,
    sync_async_mode_checks.2.2.2.1 ⟨false⟩ [⟨false⟩] rfl (by simp),
    sync_async_mode_checks.2.2.2.2.1 ⟨true⟩ ⟨false⟩ [] rfl rfl,
    sync_async_mode_checks.2.2.2.2.2 ⟨false⟩ ⟨true⟩ [] rfl rfl⟩

/-- C4 counterexample: with an asynchronous enter hook the synchronous
driver raises `ValueError`, not the `TypeError`-class error the claim states
(and likewise for the exit hook). -/
theorem sync_hook_value_error :
    begin_check (some ⟨true⟩) = .error "ValueError" ∧
    end_check (some ⟨true⟩) = .error "ValueError" ∧
    "ValueError" ≠ "TypeError" := ⟨rfl, rfl, by decide⟩

/-! ## publish / execute error handling (C5, C6) -/

theorem publishGo_all_ok (beh : HandlerBehavior) (hs : List MessageHandler)
    (h : MessageHandler) (post : List MessageHandler) (e : PyExc)
    (hh : beh h.fn = .error e) :
    ∀ (log : List Ev) (acc : List (MessageHandler × PyVal)),
      (∀ x ∈ hs, ∃ v, beh x.fn = .ok v) →
      publishGo beh (hs ++ h :: post) log acc =
        (log ++ (hs ++ [h]).map (fun x => Ev.handler x.fn), .error e) := by
  induction hs with
  | nil =>
    intro log acc _
    simp only [List.nil_append, List.map_cons, List.map_nil, publishGo, hh]
  | cons x t ih =>
    intro log acc hok
    obtain ⟨v, hv⟩ := hok x (List.mem_cons_self x t)
    simp only [List.cons_append, publishGo, hv, List.append_eq]
    rw [ih _ _ (fun y hy => hok y (List.mem_cons_of_mem x hy))]
    simp

/-- C5: when a handler invoked through `publish` inside a unit of work
raises, no later handler in the lookup order is invoked (the invocation log
stops at the raising handler), the exit hook runs exactly once and receives
that exception, and afterwards the same exception propagates to the caller
unmodified.  (`execute` wraps the same `publish` and only composes on
success, so the same holds there.) -/
theorem publish_fail_fast (beh : HandlerBehavior) (pre : List MessageHandler)
    (h : MessageHandler) (post : List MessageHandler) (e : PyExc)
    (hpre : ∀ x ∈ pre, ∃ v, beh x.fn = .ok v) (hh : beh h.fn = .error e) :
    appPublish beh (pre ++ h :: post) =
      ((pre ++ [h]).map (fun x => Ev.handler x.fn), [some e], .error e) := by
  rw [appPublish, publish, publishGo_all_ok beh pre h post e hh [] [] hpre]
  simp

/-- C5 witness: three handlers of which the second raises — only the first
two are invoked, the exit hook sees the exception once, and it propagates. -/
theorem publish_fail_fast_witness :
    appPublish
        (fun n => if n = 2 then .error ⟨"RuntimeError", []⟩ else .ok .none)
        [⟨"s1", "M", 1⟩, ⟨"s2", "M", 2⟩, ⟨"s3", "M", 3⟩] =
      ([.handler 1, .handler 2], [some ⟨"RuntimeError", []⟩],
        .error ⟨"RuntimeError", []⟩) := by
  have h := publish_fail_fast
    (fun n => if n = 2 then .error ⟨"RuntimeError", []⟩ else .ok .none)
    [⟨"s1", "M", 1⟩] ⟨"s2", "M", 2⟩ [⟨"s3", "M", 3⟩] ⟨"RuntimeError", []⟩
    (by intro x hx; simp at hx; subst hx; exact ⟨.none, rfl⟩) rfl
  simpa using h

theorem publishGo_ok_acc_ne_nil (beh : HandlerBehavior) :
    ∀ (hs : List MessageHandler) (log : List Ev)
      (acc : List (MessageHandler × PyVal)) (l : List Ev)
      (res : List (MessageHandler × PyVal)),
      publishGo beh hs log acc = (l, .ok res) → acc ≠ [] → res ≠ [] := by
  intro hs
  induction hs with
  | nil =>
    intro log acc l res hrun hacc
    simp only [publishGo] at hrun
    injection hrun with h1 h2
    injection h2 with h3
    exact h3 ▸ hacc
  | cons h t ih =>
    intro log acc l res hrun hacc
    simp only [publishGo] at hrun
    cases hb : beh h.fn with
    | ok v =>
      rw [hb] at hrun
      exact ih _ _ _ _ hrun (ldictSet_ne_nil acc h v)
    | error e =>
      rw [hb] at hrun
      exact absurd (congrArg Prod.snd hrun) (by simp)

theorem publish_ok_ne_nil (beh : HandlerBehavior) (hs : List MessageHandler)
    (log : List Ev) (res : List (MessageHandler × PyVal))
    (hrun : publish beh hs = (log, .ok res)) (hne : hs ≠ []) : res ≠ [] := by
  cases hs with
  | nil => exact absurd rfl hne
  | cons h t =>
    rw [publish] at hrun
    simp only [publishGo] at hrun
    cases hb : beh h.fn with
    | ok v =>
      rw [hb] at hrun
      exact publishGo_ok_acc_ne_nil beh t _ _ _ _ hrun (ldictSet_ne_nil [] h v)
    | error e =>
      rw [hb] at hrun
      exact absurd (congrArg Prod.snd hrun) (by simp)

/-- C6: `execute` with zero matching handlers raises `HandlerNotFoundError`
and performs no partial work — no handler runs and the composer is never
invoked (the event log is empty); with one or more matching handlers that
return, the ordered results go to the per-alias composer override when one is
registered, else to the default composer. -/
theorem execute_handler_not_found :
    (∀ (beh : HandlerBehavior) (composers : List (String × Composer))
        (msgAlias : String),
      executeTx beh [] composers msgAlias =
        ([], .error ⟨"HandlerNotFoundError", []⟩)) ∧
    (∀ (beh : HandlerBehavior) (handlers : List MessageHandler)
        (composers : List (String × Composer)) (msgAlias : String)
        (log : List Ev) (results : List (MessageHandler × PyVal)),
      publish beh handlers = (log, .ok results) → handlers ≠ [] →
      executeTx beh handlers composers msgAlias =
        (log ++ [.composer],
          ((ldictGet? composers msgAlias).getD (compose Option.none))
            (rekeyBySource results))) := by
  constructor
  · intro beh composers msgAlias
    rfl
  · intro beh handlers composers msgAlias log results hrun hne
    have hres := publish_ok_ne_nil beh handlers log results hrun hne
    rw [executeTx, hrun]
    cases results with
    | nil => exact absurd rfl hres
    | cons p ps => rfl

/-- C6 witness: the zero-handler case at a concrete alias, and a one-handler
run composed through the default composer. -/
theorem execute_handler_not_found_witness :
    executeTx (fun _ => .ok (.int 1)) [] [] "M" =
      ([], .error ⟨"HandlerNotFoundError", []⟩) ∧
    executeTx (fun _ => .ok (.int 1)) [⟨"s", "M", 1⟩] [] "M" =
      ([.handler 1, .composer], .ok (.int 1)) := by
  constructor
  · exact execute_handler_not_found.1 (fun _ => .ok (.int 1)) [] "M"
  · exact (execute_handler_not_found.2 (fun _ => .ok (.int 1)) [⟨"s", "M", 1⟩]
      [] "M" [.handler 1] [(⟨"s", "M", 1⟩, .int 1)] rfl (by simp)).trans rfl

/-! ## Composer overrides and source re-keying (C9, C10) -/

/-- C9 (amended): a registered per-alias composer override bypasses the
default composer entirely and is invoked with the handler results re-keyed by
handler source as ordered keyword arguments — unfiltered and not pre-merged,
but a source-keyed mapping rather than the raw per-handler tuple, so
same-source results collapse to the last one. -/
theorem composer_override_invocation (composers : List (String × Composer))
    (msgAlias : String) (ov : Composer)
    (results : List (MessageHandler × PyVal))
    (h : ldictGet? composers msgAlias = some ov) :
    composeResults composers msgAlias results = ov (rekeyBySource results) := by
  rw [composeResults, h]
  rfl

/-- C9 witness: an override that returns the list of values it receives,
applied through `composeResults`. -/
theorem composer_override_invocation_witness :
    composeResults [("M", fun kw => .ok (.list (kw.map Prod.snd)))] "M"
        [(⟨"s", "M", 1⟩, .int 1)] = .ok (.list [.int 1]) :=
  (composer_override_invocation [("M", fun kw => .ok (.list (kw.map Prod.snd)))]
    "M" (fun kw => .ok (.list (kw.map Prod.snd))) [(⟨"s", "M", 1⟩, .int 1)]
    rfl).trans rfl

/-- C9 counterexample: two handlers sharing the source `"s"` return `1` and
`2`; the override invoked through `composeResults` receives only the
source-keyed entry `("s", 2)` — the value list it sees is `[2]`, not the raw
ordered per-handler tuple `(1, 2)` the claim states. -/
theorem composer_override_not_raw_tuple :
    rekeyBySource [(⟨"s", "M", 1⟩, .int 1), (⟨"s", "M", 2⟩, .int 2)] =
      [("s", .int 2)] ∧
    composeResults [("M", fun kw => .ok (.list (kw.map Prod.snd)))] "M"
        [(⟨"s", "M", 1⟩, .int 1), (⟨"s", "M", 2⟩, .int 2)] =
      .ok (.list [.int 2]) ∧
    (rekeyBySource [(⟨"s", "M", 1⟩, .int 1), (⟨"s", "M", 2⟩, .int 2)]).map
        Prod.snd ≠
      ([(⟨"s", "M", 1⟩, PyVal.int 1), (⟨"s", "M", 2⟩, PyVal.int 2)] :
        List (MessageHandler × PyVal)).map Prod.snd := by
  refine ⟨rfl, rfl, ?_⟩
  intro h
  rw [show rekeyBySource [(⟨"s", "M", 1⟩, .int 1), (⟨"s", "M", 2⟩, .int 2)] =
    [("s", PyVal.int 2)] from rfl] at h
  have hlen := congrArg List.length h
  simp at hlen

theorem rekey_foldl_lookup (results : List (MessageHandler × PyVal)) :
    ∀ (acc : List (String × PyVal)) (s : String),
      ldictGet?
        (results.foldl (fun acc p => ldictSet acc p.1.source p.2) acc) s =
      match ((results.filter (fun p => p.1.source = s)).map Prod.snd).getLast? with
      | some w => some w
      | Option.none => ldictGet? acc s := by
  induction results with
  | nil => intro acc s; rfl
  | cons p t ih =>
    intro acc s
    simp only [List.foldl_cons]
    rw [ih (ldictSet acc p.1.source p.2) s]
    by_cases hs : p.1.source = s
    · subst hs
      rw [List.filter_cons_of_pos (by simp), List.map_cons]
      cases hlast : ((t.filter (fun q => q.1.source = p.1.source)).map
          Prod.snd).getLast? with
      | some w =>
        rw [List.getLast?_cons, hlast]
        rfl
      | none =>
        rw [List.getLast?_cons, hlast]
        show ldictGet? (ldictSet acc p.1.source p.2) p.1.source = _
        rw [ldictGet?_ldictSet_eq]
        rfl
    · rw [List.filter_cons_of_neg (by simp [hs]),
        ldictGet?_ldictSet_ne _ _ _ _ hs]

/-- C10: result composition re-keys the ordered handler-to-result map by the
descriptor's source before invoking the composer, so for each source the
composer sees exactly the last value produced under that source — an earlier
same-source result is overwritten and never reaches the composer. -/
theorem compose_results_rekey_by_source :
    (∀ (composers : List (String × Composer)) (msgAlias : String)
        (results : List (MessageHandler × PyVal)),
      composeResults composers msgAlias results =
        ((ldictGet? composers msgAlias).getD (compose Option.none))
          (rekeyBySource results)) ∧
    (∀ (results : List (MessageHandler × PyVal)) (s : String),
      ldictGet? (rekeyBySource results) s =
        ((results.filter (fun p => p.1.source = s)).map Prod.snd).getLast?) := by
  constructor
  · intro composers msgAlias results
    rfl
  · intro results s
    rw [rekeyBySource, rekey_foldl_lookup results [] s]
    cases ((results.filter (fun p => p.1.source = s)).map Prod.snd).getLast? with
    | some w => rfl
    | none => rfl

end Lato
